import Mathlib

/-!
Verification of the core analysis pipeline of the `go-web-analyzer`
repository (`analyzer.go`).

Go strings are modelled as lists of characters (`Str`); the byte/rune
distinction is immaterial for the ASCII data handled here.  The external
collaborators (`net/url` parsing and reference resolution, the HTML tree
produced by `net/html`/`goquery`, and the network) are modelled explicitly:
URLs by a transliteration of the relevant parts of Go's `net/url` (without
percent-encoding and userinfo retention, which the analyzed code never
exercises), HTML documents by a first-child/next-sibling node tree exactly
as in `golang.org/x/net/html`, and the network by an oracle supplying the
fetch response and the outcome of every HEAD/GET probe.
-/

namespace WebAnalyzer

/-- Go strings, modelled as lists of characters. -/
abbrev Str := List Char

/-- Embed a Lean string literal as a `Str`. -/
def str (s : String) : Str := s.data

/-- Model of Go `strings.HasPrefix p s` (arguments: prefix, then string). -/
def hasPfx : Str → Str → Bool
  | [], _ => true
  | _ :: _, [] => false
  | p :: ps, c :: cs => p == c && hasPfx ps cs

/-- Characters treated as white space by Go `unicode.IsSpace` (the subset
relevant to URL input: ASCII spacing characters plus NEL and NBSP). -/
def goIsSpace (c : Char) : Bool :=
  c == ' ' || c == '\t' || c == '\n' || c.toNat == 11 || c.toNat == 12 ||
  c == '\r' || c.toNat == 0x85 || c.toNat == 0xA0

/-- Model of Go `strings.TrimSpace`. -/
def trimChars (s : Str) : Str :=
  ((s.dropWhile goIsSpace).reverse.dropWhile goIsSpace).reverse

/-- Cut a list at the first occurrence of `c`: returns the part before,
the part after, and whether `c` occurred (Go `strings.Cut`). -/
def cutChar (c : Char) : Str → Str × Str × Bool
  | [] => ([], [], false)
  | d :: ds =>
    if d == c then ([], ds, true)
    else
      let r := cutChar c ds
      (d :: r.1, r.2.1, r.2.2)

/-- Split a list around the last occurrence of `c` (before, after), or
`none` when `c` does not occur (Go `strings.LastIndex`). -/
def lastSplitAt (c : Char) (s : Str) : Option (Str × Str) :=
  match cutChar c s.reverse with
  | (revAfter, revBefore, true) => some (revBefore.reverse, revAfter.reverse)
  | _ => none

/-- Split a list on a separator character (Go `strings.Split`). -/
def splitChar (c : Char) : Str → List Str
  | [] => [[]]
  | d :: ds =>
    match splitChar c ds with
    | [] => [[]]
    | p :: ps => if d == c then [] :: p :: ps else (d :: p) :: ps

/-- Join with a separator character (Go `strings.Join`). -/
def joinChar (c : Char) : List Str → Str
  | [] => []
  | [x] => x
  | x :: xs => x ++ c :: joinChar c xs

/-- Substring containment (Go `strings.Contains`, and the CSS `*=`
attribute operator of the `cascadia` selector engine). -/
def strContainsSub (sub : Str) : Str → Bool
  | [] => sub.isEmpty
  | c :: rest => hasPfx sub (c :: rest) || strContainsSub sub rest

/-- Model of Go `strings.EqualFold` for the ASCII hostnames at play. -/
def eqFold (x y : Str) : Bool := x.map Char.toLower == y.map Char.toLower

/-! ## Model of Go `net/url`

Transliterated from the parts of `net/url` exercised by `analyzer.go`:
`url.Parse`, `URL.String`, `URL.Hostname`, `URL.IsAbs` and
`URL.ResolveReference`.  Percent-encoding is not modelled (a `%` in a host
is rejected rather than decoded; paths are stored verbatim), and userinfo
is validated but not retained; neither feature is reachable from the
repository's data.  Go's `Opaque` field is called `opaq` here. -/

/-- Model of Go's `URL` struct (the fields used by the analyzer). -/
structure GoURL where
  scheme : Str := []
  opaq : Str := []
  host : Str := []
  path : Str := []
  rawQuery : Str := []
  fragment : Str := []
  omitHost : Bool := false
  deriving Repr, DecidableEq

/-- ASCII control bytes, rejected by `url.Parse`. -/
def ctl (c : Char) : Bool := c.toNat < 0x20 || c.toNat == 0x7f

/-- First byte of a scheme: an ASCII letter. -/
def isSchemeByte (c : Char) : Bool :=
  (decide ('a' ≤ c) && decide (c ≤ 'z')) || (decide ('A' ≤ c) && decide (c ≤ 'Z'))

/-- ASCII digit test. -/
def isDigitByte (c : Char) : Bool := decide ('0' ≤ c) && decide (c ≤ '9')

/-- Loop of Go `getScheme`: scan for `scheme:`; a digit/`+`/`-`/`.` may not
start the scheme, a `:` in first position is an error, any other byte means
the string has no scheme and is returned whole. -/
def getSchemeGo (orig acc : Str) (first : Bool) : Str → Option (Str × Str)
  | [] => some ([], orig)
  | c :: cs =>
    if isSchemeByte c then getSchemeGo orig (acc ++ [c]) false cs
    else if isDigitByte c || c == '+' || c == '-' || c == '.' then
      if first then some ([], orig) else getSchemeGo orig (acc ++ [c]) false cs
    else if c == ':' then
      if first then none else some (acc, cs)
    else some ([], orig)

/-- Model of Go `getScheme` (returns `(scheme, rest)`). -/
def getScheme (s : Str) : Option (Str × Str) := getSchemeGo s [] true s

/-- Model of Go `validOptionalPort`: empty, or `:` followed by digits. -/
def validOptionalPort : Str → Bool
  | [] => true
  | c :: cs => c == ':' && cs.all isDigitByte

/-- Characters admissible in a host component, per Go `shouldEscape` with
`encodeHost` (alphanumerics, unreserved marks, sub-delims, `:[]<>"`, and
non-ASCII); `%` is rejected since percent-decoding is not modelled. -/
def hostCharOK (c : Char) : Bool :=
  c.isAlphanum || c == '-' || c == '.' || c == '_' || c == '~' ||
  c == '!' || c == '$' || c == '&' || c.toNat == 39 || c == '(' || c == ')' ||
  c == '*' || c == '+' || c == ',' || c == ';' || c == '=' || c == ':' ||
  c == '[' || c == ']' || c == '<' || c == '>' || c == '"' ||
  decide (c.toNat ≥ 0x80)

/-- Model of Go `parseHost` (port validation and host-byte validation;
IPv6 zone handling and percent-decoding omitted). -/
def parseHost (host : Str) : Option Str :=
  let portOK :=
    if host.head? == some '[' then
      match lastSplitAt ']' host with
      | none => false
      | some (_, after) => validOptionalPort after
    else
      match lastSplitAt ':' host with
      | none => true
      | some (_, after) => validOptionalPort (':' :: after)
  if portOK && host.all hostCharOK then some host else none

/-- Bytes admissible in the userinfo component (Go `validUserinfo`). -/
def userinfoCharOK (c : Char) : Bool :=
  c.isAlphanum || c == '-' || c == '.' || c == '_' || c == ':' || c == '~' ||
  c == '!' || c == '$' || c == '&' || c.toNat == 39 || c == '(' || c == ')' ||
  c == '*' || c == '+' || c == ',' || c == ';' || c == '=' || c == '%' || c == '@'

/-- Model of Go `parseAuthority`: split userinfo at the last `@`, validate
it (the analyzer never reads it back), and parse the host. -/
def parseAuthority (authority : Str) : Option Str :=
  match lastSplitAt '@' authority with
  | none => parseHost authority
  | some (user, hostPart) =>
    if user.all userinfoCharOK then parseHost hostPart else none

/-- Body of Go `url.parse` on the fragment-stripped input (with
`viaRequest = false`, as in `url.Parse`). -/
def parsePart (s : Str) : Option GoURL :=
  if s.any ctl then none
  else
    match getScheme s with
    | none => none
    | some (scheme0, rest0) =>
      let scheme := scheme0.map Char.toLower
      let cutQ := cutChar '?' rest0
      let rest1 := cutQ.1
      let rawQuery := cutQ.2.1
      if rest1.head? != some '/' then
        if scheme ≠ [] then
          some { scheme := scheme, opaq := rest1, rawQuery := rawQuery }
        else if ((cutChar '/' rest1).1).any (fun c => c == ':') then none
        else some { scheme := scheme, path := rest1, rawQuery := rawQuery }
      else
        if (scheme ≠ [] || !hasPfx (str "///") rest1) && hasPfx (str "//") rest1 then
          let afterSlashes := rest1.drop 2
          let authority := afterSlashes.takeWhile (fun c => c != '/')
          let rest2 := afterSlashes.dropWhile (fun c => c != '/')
          match parseAuthority authority with
          | none => none
          | some host =>
            some { scheme := scheme, host := host, path := rest2, rawQuery := rawQuery }
        else
          some { scheme := scheme, path := rest1, rawQuery := rawQuery,
                 omitHost := scheme ≠ [] }

/-- Model of Go `url.Parse`: split the fragment at the first `#`, parse the
remainder, and attach the fragment. -/
def goURLParse (s : Str) : Option GoURL :=
  let cutF := cutChar '#' s
  (parsePart cutF.1).map (fun u => { u with fragment := cutF.2.1 })

/-- Model of Go `URL.IsAbs`. -/
def GoURL.isAbs (u : GoURL) : Bool := u.scheme != []

/-- Host without the port (Go `splitHostPort`, used by `URL.Hostname`). -/
def splitHostPort (hostPort : Str) : Str :=
  let host :=
    match lastSplitAt ':' hostPort with
    | some (before, after) =>
      if validOptionalPort (':' :: after) then before else hostPort
    | none => hostPort
  if host.head? == some '[' && host.getLast? == some ']' then
    (host.drop 1).dropLast
  else host

/-- Model of Go `URL.Hostname`. -/
def GoURL.hostname (u : GoURL) : Str := splitHostPort u.host

/-- Model of Go `URL.String` (no userinfo, no `ForceQuery`, verbatim
escaping). -/
def GoURL.toStr (u : GoURL) : Str :=
  let buf := if u.scheme ≠ [] then u.scheme ++ [':'] else []
  let buf :=
    if u.opaq ≠ [] then buf ++ u.opaq
    else
      let buf :=
        if u.scheme ≠ [] || u.host ≠ [] then
          if u.omitHost && u.host = [] then buf
          else (if u.host ≠ [] || u.path ≠ [] then buf ++ str "//" else buf) ++ u.host
        else buf
      let buf :=
        if u.path ≠ [] && u.path.head? != some '/' && u.host ≠ [] then buf ++ ['/']
        else buf
      let buf :=
        if buf = [] && ((cutChar '/' u.path).1).any (fun c => c == ':') then
          buf ++ str "./"
        else buf
      buf ++ u.path
  let buf := if u.rawQuery ≠ [] then buf ++ '?' :: u.rawQuery else buf
  if u.fragment ≠ [] then buf ++ '#' :: u.fragment else buf

/-- Loop of Go `resolvePath`: fold path segments, handling `.` and `..`;
`dst` is the list of emitted segments, `first` the flag from the Go code. -/
def resolveLoop : List Str → List Str → Bool → List Str × Bool
  | [], dst, first => (dst, first)
  | e :: rest, dst, first =>
    if e == str "." then resolveLoop rest dst false
    else if e == str ".." then
      if dst.length ≤ 1 then resolveLoop rest [] true
      else resolveLoop rest dst.dropLast first
    else resolveLoop rest (dst ++ [e]) false

/-- Model of Go `resolvePath` (RFC 3986 merge and remove-dot-segments). -/
def resolvePath (base ref : Str) : Str :=
  let full :=
    if ref = [] then base
    else if ref.head? != some '/' then
      (match lastSplitAt '/' base with
       | some (before, _) => before ++ ['/']
       | none => []) ++ ref
    else ref
  if full = [] then []
  else
    let segs := splitChar '/' full
    let dst := (resolveLoop segs [] true).1
    let lastE := segs.getLast?.getD []
    let dst := if lastE == str "." || lastE == str ".." then dst ++ [[]] else dst
    let j := joinChar '/' dst
    if j.head? == some '/' then j else '/' :: j

/-- Model of Go `URL.ResolveReference` (no userinfo, no `ForceQuery`). -/
def GoURL.resolveReference (u ref : GoURL) : GoURL :=
  let url := { ref with scheme := if ref.scheme = [] then u.scheme else ref.scheme }
  if ref.scheme ≠ [] || ref.host ≠ [] then
    { url with path := resolvePath ref.path [] }
  else if ref.opaq ≠ [] then url
  else
    let url :=
      if ref.path = [] && ref.rawQuery = [] then
        let url := { url with rawQuery := u.rawQuery }
        if ref.fragment = [] then { url with fragment := u.fragment } else url
      else url
    if ref.path = [] && u.opaq ≠ [] then
      { url with opaq := u.opaq, host := [], path := [] }
    else
      { url with host := u.host, path := resolvePath u.path ref.path }

/-! ## Model of the parsed HTML document

`golang.org/x/net/html` represents a document as nodes linked by
`FirstChild` and `NextSibling`; the model mirrors that shape directly.
`goquery`'s `Find` enumerates matching descendants in document order. -/

/-- An HTML node: an element (tag, attributes, first child, next sibling),
a text node, a doctype node, or the end of a sibling chain. -/
inductive HNode where
  | elem (tag : Str) (attrs : List (Str × Str)) (firstChild : HNode) (next : HNode)
  | text (s : Str) (next : HNode)
  | doctype (next : HNode)
  | nil
  deriving Repr

/-- Tag of a node (empty for non-elements). -/
def tagOf : HNode → Str
  | .elem t _ _ _ => t
  | _ => []

/-- Attribute list of a node. -/
def attrsOf : HNode → List (Str × Str)
  | .elem _ a _ _ => a
  | _ => []

/-- First child of a node. -/
def childOf : HNode → HNode
  | .elem _ _ c _ => c
  | _ => .nil

/-- First value of an attribute, as in `goquery`'s `Attr`. -/
def getAttr (attrs : List (Str × Str)) (key : Str) : Option Str :=
  (attrs.find? (fun a => a.1 == key)).map (fun a => a.2)

/-- All nodes of a sibling chain and their subtrees, in document order
(preorder). -/
def descList : HNode → List HNode
  | .nil => []
  | .elem t a c nxt => .elem t a c nxt :: (descList c ++ descList nxt)
  | .text s nxt => .text s nxt :: descList nxt
  | .doctype nxt => .doctype nxt :: descList nxt

/-- Descendants of a node (the scope of a `Find` on that node). -/
def subDesc (n : HNode) : List HNode := descList (childOf n)

/-- Concatenated text content of a sibling chain (as `goquery`'s `Text`). -/
def textChain : HNode → Str
  | .nil => []
  | .text s nxt => s ++ textChain nxt
  | .elem _ _ c nxt => textChain c ++ textChain nxt
  | .doctype nxt => textChain nxt

/-! ## Model of `analyzer.go` -/

/-- Loop of `detectHTMLVersion`: scan the document root's children for a
doctype node. -/
def detectLoop : HNode → Str
  | .doctype _ => str "HTML5 (with doctype)"
  | .elem _ _ _ nxt => detectLoop nxt
  | .text _ nxt => detectLoop nxt
  | .nil => str "Unknown (no doctype)"

/-- `detectHTMLVersion` from `analyzer.go`. -/
def detectHTMLVersion (root : HNode) : Str := detectLoop (childOf root)

/-- Text of the first `title` element (`doc.Find("title").First().Text()`),
empty when there is none. -/
def titleText (doc : HNode) : Str :=
  match (subDesc doc).find? (fun n => tagOf n == str "title") with
  | some n => textChain (childOf n)
  | none => []

/-- Selector tag `h<level>`. -/
def hTag (level : Nat) : Str := 'h' :: Nat.toDigits 10 level

/-- `countHeadings` from `analyzer.go`: for levels 1..6, the number of
matching elements anywhere in the document (the Go map is modelled as an
association list keyed `h1`..`h6`). -/
def countHeadings (doc : HNode) : List (Str × Nat) :=
  (List.range 6).map (fun i =>
    (hTag (i + 1), ((subDesc doc).filter (fun n => tagOf n == hTag (i + 1))).length))

/-- `sameHost` from `analyzer.go`. -/
def sameHost (a b : GoURL) : Bool := eqFold a.hostname b.hostname

/-- The `href` values of `doc.Find("a[href]")`, in document order. -/
def anchorHrefs (doc : HNode) : List Str :=
  (subDesc doc).filterMap (fun n =>
    if tagOf n == str "a" then getAttr (attrsOf n) (str "href") else none)

/-- State threaded through the `classifyLinks` loop: counts, the seen-set,
and the emitted link list. -/
structure ClassifyState where
  internal : Nat := 0
  external : Nat := 0
  seen : List Str := []
  all : List Str := []
  deriving Repr, DecidableEq

/-- Resolution and normalization applied to one parsed href inside
`classifyLinks`: resolve against the base when relative, then clear the
fragment and the query. -/
def resolvedNorm (base u0 : GoURL) : GoURL :=
  let u1 := if !u0.isAbs then base.resolveReference u0 else u0
  { u1 with fragment := [], rawQuery := [] }

/-- Skip test applied to a trimmed href at the top of the `classifyLinks`
callback: empty, or prefixed `javascript:`, `mailto:`, or `#`. -/
def skipHref (href : Str) : Bool :=
  decide (href = []) || hasPfx (str "javascript:") href ||
    hasPfx (str "mailto:") href || hasPfx (str "#") href

/-- Body of the `classifyLinks` callback for one href. -/
def classifyStep (base : GoURL) (st : ClassifyState) (href0 : Str) : ClassifyState :=
  if skipHref (trimChars href0) then st
  else
    match goURLParse (trimChars href0) with
    | none => st
    | some u0 =>
      if (resolvedNorm base u0).toStr ∈ st.seen then st
      else
        { internal := if sameHost (resolvedNorm base u0) base then st.internal + 1
            else st.internal,
          external := if sameHost (resolvedNorm base u0) base then st.external
            else st.external + 1,
          seen := st.seen ++ [(resolvedNorm base u0).toStr],
          all := st.all ++ [(resolvedNorm base u0).toStr] }

/-- `classifyLinks` from `analyzer.go`: returns internal count, external
count, and the deduplicated links in first-seen order. -/
def classifyLinks (doc : HNode) (base : GoURL) : Nat × Nat × List Str :=
  let st := (anchorHrefs doc).foldl (classifyStep base) {}
  (st.internal, st.external, st.all)

/-- Matches `input[type="password"]`. -/
def inputIsPassword (n : HNode) : Bool :=
  tagOf n == str "input" && getAttr (attrsOf n) (str "type") == some (str "password")

/-- Matches the selector group `input[name="username"], input[name="email"],
input[id*="user"], input[id*="email"]`. -/
def inputIsUserField (n : HNode) : Bool :=
  tagOf n == str "input" &&
    (getAttr (attrsOf n) (str "name") == some (str "username") ||
     getAttr (attrsOf n) (str "name") == some (str "email") ||
     (match getAttr (attrsOf n) (str "id") with
      | some v => strContainsSub (str "user") v || strContainsSub (str "email") v
      | none => false))

/-- Matches the selector group `button[type="submit"], input[type="submit"]`. -/
def inputIsSubmit (n : HNode) : Bool :=
  (tagOf n == str "button" || tagOf n == str "input") &&
    getAttr (attrsOf n) (str "type") == some (str "submit")

/-- The form contains a password-type input. -/
def formHasPassword (f : HNode) : Bool :=
  !((subDesc f).filter inputIsPassword).isEmpty

/-- The form contains an input whose name or id suggests username/email. -/
def formHasUser (f : HNode) : Bool :=
  !((subDesc f).filter inputIsUserField).isEmpty

/-- The form contains a submit control. -/
def formHasSubmit (f : HNode) : Bool :=
  !((subDesc f).filter inputIsSubmit).isEmpty

/-- The predicate on one form tested inside the `hasLoginForm` loop. -/
def formMatches (f : HNode) : Bool :=
  formHasPassword f || (formHasUser f && formHasSubmit f)

/-- Loop of `hasLoginForm`: `EachWithBreak` over the forms, stopping at the
first match. -/
def hasLoginFormLoop : List HNode → Bool
  | [] => false
  | f :: rest =>
    if formHasPassword f then true
    else if formHasUser f && formHasSubmit f then true
    else hasLoginFormLoop rest

/-- The `form` elements of the document, in document order. -/
def formsOf (doc : HNode) : List HNode :=
  (subDesc doc).filter (fun n => tagOf n == str "form")

/-- `hasLoginForm` from `analyzer.go`. -/
def hasLoginForm (doc : HNode) : Bool := hasLoginFormLoop (formsOf doc)

/-! ## Model of the reachability checker

A probe's outcome is supplied by an oracle: either an HTTP status, a
transport error, or failure by context cancellation (which `client.Do`
reports as an ordinary error).  Request construction from an
already-parsed URL string is modelled as succeeding. -/

/-- Outcome of one HTTP probe. -/
inductive ProbeResult where
  | status (code : Nat)
  | netError
  | canceled
  deriving Repr, DecidableEq

/-- Oracle outcomes for the HEAD probe and the (potential) GET probe of one
link. -/
structure ProbePair where
  headRes : ProbeResult
  getRes : ProbeResult
  deriving Repr, DecidableEq

/-- The `[200,400)` success window used throughout `analyzer.go`. -/
def statusOK (c : Nat) : Bool := decide (200 ≤ c) && decide (c < 400)

/-- Whether a probe came back with an in-window status. -/
def probeOK : ProbeResult → Bool
  | .status c => statusOK c
  | .netError => false
  | .canceled => false

/-- `linkAccessible` from `analyzer.go`: HEAD first, then the GET fallback. -/
def linkAccessible (p : ProbePair) : Bool :=
  if probeOK p.headRes then true else probeOK p.getRes

/-- HTTP method of a probe. -/
inductive ProbeMethod where
  | headM
  | getM
  deriving Repr, DecidableEq

/-- The probes `linkAccessible` issues for one link: always HEAD, and GET
exactly when the HEAD attempt errored or had an out-of-window status. -/
def linkProbesIssued (p : ProbePair) : List ProbeMethod :=
  if probeOK p.headRes then [.headM] else [.headM, .getM]

/-- `checkLinksAccessibility` from `analyzer.go`: the aggregate count of
links for which `linkAccessible` is false (the bounded worker pool only
affects scheduling, not the mutex-protected total). -/
def checkLinksAccessibility (probes : Str → ProbePair) (links : List Str) : Nat :=
  if links.isEmpty then 0
  else links.countP (fun l => !linkAccessible (probes l))

/-- The probe work `checkLinksAccessibility` spawns: nothing for an empty
input, otherwise the probes of each link. -/
def checkLinksProbeWork (probes : Str → ProbePair) (links : List Str) :
    List (Str × ProbeMethod) :=
  if links.isEmpty then []
  else links.flatMap (fun l => (linkProbesIssued (probes l)).map (fun m => (l, m)))

/-! ## Model of the orchestrator (`AnalyzeURL`) -/

/-- Reason a `normalizeURL` call fails (all are `InvalidInput` for the
caller). -/
inductive NormError where
  | emptyURL
  | parseFailed
  | missingHost
  deriving Repr, DecidableEq

/-- Parse-and-validate stage of `normalizeURL` (after trimming and scheme
defaulting): `url.Parse`, then the empty-host check, then `u.String()`. -/
def normalizeParseStage (s : Str) : Except NormError Str :=
  match goURLParse s with
  | none => .error .parseFailed
  | some u => if u.host = [] then .error .missingHost else .ok u.toStr

/-- `normalizeURL` from `analyzer.go`. -/
def normalizeURL (raw : Str) : Except NormError Str :=
  let t := trimChars raw
  if t = [] then .error .emptyURL
  else
    normalizeParseStage
      (if !hasPfx (str "http://") t && !hasPfx (str "https://") t then
        str "https://" ++ t
      else t)

/-- `AnalyzeError` from `analyzer.go` (`statusCode` 0 means no HTTP
response was obtained). -/
structure AnalyzeError where
  statusCode : Nat := 0
  msg : Str
  deriving Repr, DecidableEq

/-- `LinkSummary` from `analyzer.go`. -/
structure LinkSummary where
  internal : Nat
  external : Nat
  total : Nat
  deriving Repr, DecidableEq

/-- `AnalyzeResult` from `analyzer.go`. -/
structure AnalyzeResult where
  htmlVersion : Str
  title : Str
  headings : List (Str × Nat)
  links : LinkSummary
  hasLoginForm : Bool
  inaccessible : Nat
  deriving Repr, DecidableEq

/-- Response delivered by `client.Do` for the page fetch: final status,
body, the tree the body parses to, and the post-redirect request URL
(`resp.Request.URL`). -/
structure FetchResponse where
  status : Nat
  body : Str
  doc : HNode
  finalURL : GoURL

/-- Network oracle: the page fetch (`none` is a transport failure,
including timeouts and the redirect cap) and the probe outcomes for each
link. -/
structure Network where
  fetch : Str → Option FetchResponse
  probes : Str → ProbePair

/-- `AnalyzeURL` from `analyzer.go`.  Note the classification base passed
to `classifyLinks` is `req.URL` — the parse of the normalized input URL
that the request was issued to, not the post-redirect
`resp.Request.URL`. -/
def analyzeURL (net : Network) (raw : Str) : Except AnalyzeError AnalyzeResult :=
  match normalizeURL raw with
  | .error _ => .error { statusCode := 0, msg := str "invalid URL" }
  | .ok parsed =>
    match goURLParse parsed with
    | none => .error { statusCode := 0, msg := str "request creation failed" }
    | some reqURL =>
      match net.fetch parsed with
      | none => .error { statusCode := 0, msg := str "fetch failed" }
      | some resp =>
        if resp.status < 200 ∨ 400 ≤ resp.status then
          .error { statusCode := resp.status, msg := trimChars (resp.body.take 1024) }
        else
          let c := classifyLinks resp.doc reqURL
          .ok { htmlVersion := detectHTMLVersion resp.doc,
                title := trimChars (titleText resp.doc),
                headings := countHeadings resp.doc,
                links := { internal := c.1, external := c.2.1, total := c.1 + c.2.1 },
                inaccessible := checkLinksAccessibility net.probes c.2.2,
                hasLoginForm := hasLoginForm resp.doc }

/-! ## Helper lemmas about the URL model -/

theorem getScheme_https (t : Str) :
    getScheme (str "https://" ++ t) = some (str "https", str "//" ++ t) := rfl

theorem getScheme_http (t : Str) :
    getScheme (str "http://" ++ t) = some (str "http", str "//" ++ t) := rfl

theorem any_ctl_https (t : Str) :
    (str "https://" ++ t).any ctl = t.any ctl := rfl

theorem any_ctl_http (t : Str) :
    (str "http://" ++ t).any ctl = t.any ctl := rfl

theorem parsePart_https_eq (t : Str) (hctl : t.any ctl = false) :
    parsePart (str "https://" ++ t) =
      match parseAuthority ((cutChar '?' t).1.takeWhile (fun c => c != '/')) with
      | none => none
      | some host =>
        some { scheme := str "https", host := host,
               path := (cutChar '?' t).1.dropWhile (fun c => c != '/'),
               rawQuery := (cutChar '?' t).2.1 } := by
  unfold parsePart
  rw [any_ctl_https, hctl]
  rfl

theorem parsePart_http_eq (t : Str) (hctl : t.any ctl = false) :
    parsePart (str "http://" ++ t) =
      match parseAuthority ((cutChar '?' t).1.takeWhile (fun c => c != '/')) with
      | none => none
      | some host =>
        some { scheme := str "http", host := host,
               path := (cutChar '?' t).1.dropWhile (fun c => c != '/'),
               rawQuery := (cutChar '?' t).2.1 } := by
  unfold parsePart
  rw [any_ctl_http, hctl]
  rfl

theorem parsePart_https_ctl (t : Str) (hctl : t.any ctl = true) :
    parsePart (str "https://" ++ t) = none := by
  unfold parsePart
  rw [any_ctl_https, hctl]
  rfl

theorem parsePart_http_ctl (t : Str) (hctl : t.any ctl = true) :
    parsePart (str "http://" ++ t) = none := by
  unfold parsePart
  rw [any_ctl_http, hctl]
  rfl

theorem parsePart_https_prefix (t : Str) (u : GoURL)
    (h : parsePart (str "https://" ++ t) = some u) :
    u.scheme = str "https" ∧ u.opaq = [] := by
  cases hctl : t.any ctl with
  | true => rw [parsePart_https_ctl t hctl] at h; exact absurd h (by simp)
  | false =>
    rw [parsePart_https_eq t hctl] at h
    cases hpa : parseAuthority ((cutChar '?' t).1.takeWhile (fun c => c != '/')) with
    | none => rw [hpa] at h; exact absurd h (by simp)
    | some host =>
      rw [hpa] at h
      cases h
      exact ⟨rfl, rfl⟩

theorem parsePart_http_prefix (t : Str) (u : GoURL)
    (h : parsePart (str "http://" ++ t) = some u) :
    u.scheme = str "http" ∧ u.opaq = [] := by
  cases hctl : t.any ctl with
  | true => rw [parsePart_http_ctl t hctl] at h; exact absurd h (by simp)
  | false =>
    rw [parsePart_http_eq t hctl] at h
    cases hpa : parseAuthority ((cutChar '?' t).1.takeWhile (fun c => c != '/')) with
    | none => rw [hpa] at h; exact absurd h (by simp)
    | some host =>
      rw [hpa] at h
      cases h
      exact ⟨rfl, rfl⟩

theorem goURLParse_shift (s : Str) :
    goURLParse s = (parsePart (cutChar '#' s).1).map
      (fun u => { u with fragment := (cutChar '#' s).2.1 }) := rfl

theorem cutChar_hash_https (t : Str) :
    cutChar '#' (str "https://" ++ t) =
      (str "https://" ++ (cutChar '#' t).1, (cutChar '#' t).2.1, (cutChar '#' t).2.2) := rfl

theorem cutChar_hash_http (t : Str) :
    cutChar '#' (str "http://" ++ t) =
      (str "http://" ++ (cutChar '#' t).1, (cutChar '#' t).2.1, (cutChar '#' t).2.2) := rfl

theorem goURLParse_https_prefix (t : Str) (u : GoURL)
    (h : goURLParse (str "https://" ++ t) = some u) :
    u.scheme = str "https" ∧ u.opaq = [] := by
  rw [goURLParse_shift, cutChar_hash_https] at h
  cases hm : parsePart (str "https://" ++ (cutChar '#' t).1) with
  | none => rw [hm] at h; exact absurd h (by simp)
  | some v =>
    rw [hm] at h
    obtain ⟨hs, ho⟩ := parsePart_https_prefix _ _ hm
    cases h
    exact ⟨hs, ho⟩

theorem goURLParse_http_prefix (t : Str) (u : GoURL)
    (h : goURLParse (str "http://" ++ t) = some u) :
    u.scheme = str "http" ∧ u.opaq = [] := by
  rw [goURLParse_shift, cutChar_hash_http] at h
  cases hm : parsePart (str "http://" ++ (cutChar '#' t).1) with
  | none => rw [hm] at h; exact absurd h (by simp)
  | some v =>
    rw [hm] at h
    obtain ⟨hs, ho⟩ := parsePart_http_prefix _ _ hm
    cases h
    exact ⟨hs, ho⟩

theorem hasPfx_self_append (p s : Str) : hasPfx p (p ++ s) = true := by
  induction p with
  | nil => rfl
  | cons c cs ih => simp [hasPfx, ih]

theorem hasPfx_scheme (p tail : Str) :
    hasPfx (p ++ str "://") (p ++ ':' :: '/' :: '/' :: tail) = true := by
  induction p with
  | nil => simp [hasPfx, str]
  | cons c cs ih => simpa [hasPfx] using ih

theorem hasPfx_drop (p : Str) : ∀ s : Str, hasPfx p s = true → s = p ++ s.drop p.length := by
  induction p with
  | nil => intro s _; rfl
  | cons c cs ih =>
    intro s h
    cases s with
    | nil => simp [hasPfx] at h
    | cons d ds =>
      simp only [hasPfx, Bool.and_eq_true, beq_iff_eq] at h
      obtain ⟨rfl, h2⟩ := h
      simpa using ih ds h2

theorem toStr_abs_prefix (u : GoURL) (hop : u.opaq = []) (hh : u.host ≠ [])
    (hs : u.scheme ≠ []) :
    hasPfx (u.scheme ++ str "://") u.toStr = true := by
  have hslash : str "//" = ['/', '/'] := rfl
  have hne : ∀ (a : Str) (x : Char) (b c : Str), a ++ x :: b ++ c ≠ [] := by
    intro a x b c h
    simpa using congrArg List.length h
  unfold GoURL.toStr
  simp only [hop, hs, hh, hslash, ne_eq, not_true_eq_false, not_false_eq_true,
    if_true, if_false, decide_eq_true_eq, Bool.true_or, Bool.or_true,
    List.append_assoc]
  split <;> split <;> split <;>
    simp_all [List.append_assoc, hasPfx_scheme, hne]

theorem normalizeParseStage_ok (s r : Str) (h : normalizeParseStage s = .ok r) :
    ∃ u : GoURL, goURLParse s = some u ∧ u.host ≠ [] ∧ r = u.toStr := by
  unfold normalizeParseStage at h
  split at h
  · exact Except.noConfusion h
  · next u heq =>
    by_cases hh : u.host = []
    · rw [if_pos hh] at h; exact Except.noConfusion h
    · rw [if_neg hh] at h
      cases h
      exact ⟨u, heq, hh, rfl⟩

/-! ## Claim C4 -/

/-- C4: `normalizeURL` first trims white space and fails (`InvalidInput`)
when the result is empty; when the trimmed input lacks an `http://` or
`https://` prefix it prepends `https://`; it then parses the string and
fails when parsing fails or the host is empty; otherwise it returns an
absolute scheme-and-host-qualified URL string.  `normalize("example.com")`
succeeds with host `example.com`; `normalize("")` and `normalize("http://")`
fail. -/
theorem C4_normalizeURL_contract :
    (∀ raw : Str, trimChars raw = [] → normalizeURL raw = .error .emptyURL) ∧
    (∀ raw : Str, trimChars raw ≠ [] →
      normalizeURL raw = normalizeParseStage
        (if !hasPfx (str "http://") (trimChars raw) &&
            !hasPfx (str "https://") (trimChars raw) then
          str "https://" ++ trimChars raw
        else trimChars raw)) ∧
    (∀ s : Str, goURLParse s = none → normalizeParseStage s = .error .parseFailed) ∧
    (∀ (s : Str) (u : GoURL), goURLParse s = some u → u.host = [] →
      normalizeParseStage s = .error .missingHost) ∧
    (∀ (s : Str) (u : GoURL), goURLParse s = some u → u.host ≠ [] →
      normalizeParseStage s = .ok u.toStr) ∧
    (∀ raw r : Str, normalizeURL raw = .ok r →
      ∃ u : GoURL, r = u.toStr ∧ u.host ≠ [] ∧
        (u.scheme = str "http" ∨ u.scheme = str "https") ∧
        hasPfx (u.scheme ++ str "://") r = true) ∧
    (normalizeURL (str "example.com") = .ok (str "https://example.com") ∧
      (goURLParse (str "https://example.com")).map GoURL.hostname =
        some (str "example.com")) ∧
    normalizeURL (str "") = .error .emptyURL ∧
    normalizeURL (str "http://") = .error .missingHost := by
  refine ⟨?_, ?_, ?_, ?_, ?_, ?_, ⟨rfl, rfl⟩, rfl, rfl⟩
  · intro raw h
    simp [normalizeURL, h]
  · intro raw h
    simp only [normalizeURL]
    rw [if_neg h]
  · intro s h
    unfold normalizeParseStage
    rw [h]
  · intro s u h hh
    simp [normalizeParseStage, h, hh]
  · intro s u h hh
    simp [normalizeParseStage, h, hh]
  · intro raw r h
    unfold normalizeURL at h
    by_cases ht : trimChars raw = []
    · rw [if_pos ht] at h; exact Except.noConfusion h
    · rw [if_neg ht] at h
      by_cases hc : (!hasPfx (str "http://") (trimChars raw) &&
          !hasPfx (str "https://") (trimChars raw)) = true
      · rw [if_pos hc] at h
        obtain ⟨u, hp, hhost, hr⟩ := normalizeParseStage_ok _ _ h
        obtain ⟨hs, ho⟩ := goURLParse_https_prefix _ _ hp
        exact ⟨u, hr, hhost, Or.inr hs,
          by rw [hr]; exact toStr_abs_prefix u ho hhost (by rw [hs]; decide)⟩
      · rw [if_neg hc] at h
        have hdis : hasPfx (str "http://") (trimChars raw) = true ∨
            hasPfx (str "https://") (trimChars raw) = true := by
          rcases h1 : hasPfx (str "http://") (trimChars raw) with _ | _
          · rcases h2 : hasPfx (str "https://") (trimChars raw) with _ | _
            · exact absurd (by rw [h1, h2]; rfl) hc
            · exact Or.inr rfl
          · exact Or.inl rfl
        obtain ⟨u, hp, hhost, hr⟩ := normalizeParseStage_ok _ _ h
        rcases hdis with hd | hd
        · rw [hasPfx_drop _ _ hd] at hp
          obtain ⟨hs, ho⟩ := goURLParse_http_prefix _ _ hp
          exact ⟨u, hr, hhost, Or.inl hs,
            by rw [hr]; exact toStr_abs_prefix u ho hhost (by rw [hs]; decide)⟩
        · rw [hasPfx_drop _ _ hd] at hp
          obtain ⟨hs, ho⟩ := goURLParse_https_prefix _ _ hp
          exact ⟨u, hr, hhost, Or.inr hs,
            by rw [hr]; exact toStr_abs_prefix u ho hhost (by rw [hs]; decide)⟩

/-- Witness for C4: the hypotheses are satisfiable at concrete inputs. -/
theorem C4_normalizeURL_contract_witness :
    normalizeURL (str "  ") = .error .emptyURL ∧
    normalizeURL (str "example.com") = normalizeParseStage
      (if !hasPfx (str "http://") (trimChars (str "example.com")) &&
          !hasPfx (str "https://") (trimChars (str "example.com")) then
        str "https://" ++ trimChars (str "example.com")
      else trimChars (str "example.com")) :=
  ⟨C4_normalizeURL_contract.1 (str "  ") (by decide),
   C4_normalizeURL_contract.2.1 (str "example.com") (by decide)⟩

/-! ## Claim C10 -/

/-- C10: the scheme check of `normalizeURL` is case-sensitive on the
literal prefixes `http://` and `https://`; an input whose scheme uses any
upper-case letters still gets `https://` prepended, so for
`HTTP://example.com` the resulting host is `HTTP`, not `example.com`. -/
theorem C10_scheme_prefix_case_sensitive :
    (∀ raw : Str, trimChars raw ≠ [] →
      hasPfx (str "http://") (trimChars raw) = false →
      hasPfx (str "https://") (trimChars raw) = false →
      normalizeURL raw = normalizeParseStage (str "https://" ++ trimChars raw)) ∧
    normalizeURL (str "HTTP://example.com") =
      .ok (str "https://HTTP://example.com") ∧
    (goURLParse (str "https://HTTP://example.com")).map GoURL.hostname =
      some (str "HTTP") ∧
    str "HTTP" ≠ str "example.com" := by
  refine ⟨?_, rfl, rfl, by decide⟩
  intro raw h1 h2 h3
  simp only [normalizeURL]
  rw [if_neg h1, if_pos (by rw [h2, h3]; rfl)]

/-- Witness for C10: the hypotheses are satisfiable at `HTTP://example.com`. -/
theorem C10_scheme_prefix_case_sensitive_witness :
    normalizeURL (str "HTTP://example.com") =
      normalizeParseStage (str "https://" ++ trimChars (str "HTTP://example.com")) :=
  C10_scheme_prefix_case_sensitive.1 (str "HTTP://example.com")
    (by decide) (by decide) (by decide)

/-! ## Claim C2 -/

/-- C2: for every link the checker first probes with HEAD; the GET retry
happens exactly when the HEAD probe errors or returns a status outside
`[200,400)`; a link contributes 1 to the inaccessible count exactly when
both probes fail or return out-of-window statuses; an empty input returns
0 without spawning any probe work. -/
theorem C2_reachability_checker_contract :
    (∀ probes : Str → ProbePair,
      checkLinksAccessibility probes [] = 0 ∧ checkLinksProbeWork probes [] = []) ∧
    (∀ p : ProbePair, (linkProbesIssued p).head? = some .headM) ∧
    (∀ p : ProbePair, .getM ∈ linkProbesIssued p ↔ probeOK p.headRes = false) ∧
    (∀ (probes : Str → ProbePair) (links : List Str),
      checkLinksAccessibility probes links =
        links.countP (fun l => !probeOK (probes l).headRes && !probeOK (probes l).getRes)) := by
  refine ⟨fun probes => ⟨rfl, rfl⟩, fun p => ?_, fun p => ?_, fun probes links => ?_⟩
  · unfold linkProbesIssued
    split <;> rfl
  · unfold linkProbesIssued
    cases hh : probeOK p.headRes <;> simp
  · unfold checkLinksAccessibility
    split
    · next hemp =>
      rw [List.isEmpty_iff.mp hemp]
      rfl
    · congr 1
      funext l
      cases hh : probeOK (probes l).headRes <;> simp [linkAccessible, hh]

/-! ## Claim C3 -/

/-- Counterexample to C3: a HEAD probe that fails by context cancellation
IS retried with GET, and when the GET fallback also fails by cancellation
the link DOES contribute 1 to the inaccessible count. -/
theorem C3_counterexample :
    linkProbesIssued ⟨.canceled, .canceled⟩ = [.headM, .getM] ∧
    checkLinksAccessibility (fun _ => ⟨.canceled, .canceled⟩)
      [str "https://x.com/"] = 1 :=
  ⟨rfl, rfl⟩

/-- C3 (amended): a canceled HEAD probe is treated like any other failed
probe — the GET fallback is still issued, the link is accessible exactly
when the fallback succeeds, and over links whose HEAD probes are all
canceled the inaccessible count is the number of links whose GET fallback
also fails. -/
theorem C3_canceled_probe_retried_and_counted :
    (∀ g : ProbeResult, linkProbesIssued ⟨.canceled, g⟩ = [.headM, .getM] ∧
      linkAccessible ⟨.canceled, g⟩ = probeOK g) ∧
    (∀ (probes : Str → ProbePair) (links : List Str),
      (∀ l ∈ links, (probes l).headRes = .canceled) →
      checkLinksAccessibility probes links =
        links.countP (fun l => !probeOK (probes l).getRes)) := by
  constructor
  · intro g
    exact ⟨rfl, rfl⟩
  · intro probes links h
    unfold checkLinksAccessibility
    split
    · next hemp =>
      rw [List.isEmpty_iff.mp hemp]
      rfl
    · apply List.countP_congr
      intro l hl
      rw [show linkAccessible (probes l) = probeOK (probes l).getRes by
        unfold linkAccessible; rw [h l hl]; rfl]

/-- Witness for C3 (amended): two canceled links are both counted. -/
theorem C3_canceled_probe_retried_and_counted_witness :
    checkLinksAccessibility (fun _ => ⟨ProbeResult.canceled, ProbeResult.canceled⟩)
        [str "https://a.com/", str "https://b.com/"] =
      List.countP
        (fun l => !probeOK ((fun _ => (⟨ProbeResult.canceled, ProbeResult.canceled⟩ : ProbePair)) l).getRes)
        [str "https://a.com/", str "https://b.com/"] :=
  C3_canceled_probe_retried_and_counted.2
    (fun _ => ⟨ProbeResult.canceled, ProbeResult.canceled⟩)
    [str "https://a.com/", str "https://b.com/"]
    (fun _ _ => rfl)

/-! ## Concrete fixtures used by the claims -/

/-- Anchor element with an `href` attribute. -/
def anchorEl (href : String) (next : HNode) : HNode :=
  .elem (str "a") [(str "href", str href)] .nil next

/-- Document for the heading-count example:
`<h1>a</h1><h2>b</h2><h2>c</h2><h3>d</h3>` (with a title, as in the
repository's test). -/
def headingsDoc : HNode :=
  .elem (str "html") []
    (.elem (str "head") [] (.elem (str "title") [] (.text (str " x ") .nil) .nil)
      (.elem (str "body") []
        (.elem (str "h1") [] (.text (str "a") .nil)
          (.elem (str "h2") [] (.text (str "b") .nil)
            (.elem (str "h2") [] (.text (str "c") .nil)
              (.elem (str "h3") [] (.text (str "d") .nil) .nil)))) .nil)) .nil

/-- Document with a password-bearing form (and unrelated other fields):
`<form><input type="text" name="q"/><input type="password"/></form>`. -/
def passwordFormDoc : HNode :=
  .elem (str "html") []
    (.elem (str "body") []
      (.elem (str "form") []
        (.elem (str "input") [(str "type", str "text"), (str "name", str "q")] .nil
          (.elem (str "input") [(str "type", str "password")] .nil .nil)) .nil) .nil) .nil

/-- Document whose single form matches neither branch of the heuristic. -/
def plainFormDoc : HNode :=
  .elem (str "html") []
    (.elem (str "body") []
      (.elem (str "form") []
        (.elem (str "input") [(str "type", str "text"), (str "name", str "q")] .nil .nil)
        .nil) .nil) .nil

/-- Document with anchors `/x`, `https://example.com/y`, `https://other.com/`. -/
def threeLinksDoc : HNode :=
  .elem (str "html") []
    (.elem (str "body") []
      (anchorEl "/x"
        (anchorEl "https://example.com/y"
          (anchorEl "https://other.com/" .nil))) .nil) .nil

/-- Base URL `https://example.com/page` for the classification example. -/
def pageBase : GoURL :=
  { scheme := str "https", host := str "example.com", path := str "/page" }

/-! ## Claim C9 -/

/-- C9: the heading-count map has exactly the keys `h1`..`h6`, each mapped
to the number of heading elements of that level anywhere in the document,
and on `<h1>a</h1><h2>b</h2><h2>c</h2><h3>d</h3>` it is exactly
`{h1:1, h2:2, h3:1, h4:0, h5:0, h6:0}`. -/
theorem C9_heading_counts :
    (∀ doc : HNode, (countHeadings doc).map Prod.fst =
      [str "h1", str "h2", str "h3", str "h4", str "h5", str "h6"]) ∧
    (∀ (doc : HNode) (tag : Str) (v : Nat), (tag, v) ∈ countHeadings doc →
      v = (subDesc doc).countP (fun n => tagOf n == tag)) ∧
    countHeadings headingsDoc =
      [(str "h1", 1), (str "h2", 2), (str "h3", 1),
       (str "h4", 0), (str "h5", 0), (str "h6", 0)] := by
  refine ⟨fun doc => rfl, ?_, rfl⟩
  intro doc tag v h
  have hexp : countHeadings doc =
      [(str "h1", ((subDesc doc).filter (fun n => tagOf n == str "h1")).length),
       (str "h2", ((subDesc doc).filter (fun n => tagOf n == str "h2")).length),
       (str "h3", ((subDesc doc).filter (fun n => tagOf n == str "h3")).length),
       (str "h4", ((subDesc doc).filter (fun n => tagOf n == str "h4")).length),
       (str "h5", ((subDesc doc).filter (fun n => tagOf n == str "h5")).length),
       (str "h6", ((subDesc doc).filter (fun n => tagOf n == str "h6")).length)] := rfl
  rw [hexp] at h
  rw [List.countP_eq_length_filter]
  simp only [List.mem_cons, List.not_mem_nil, or_false, Prod.mk.injEq] at h
  rcases h with ⟨h1, h2⟩ | ⟨h1, h2⟩ | ⟨h1, h2⟩ | ⟨h1, h2⟩ | ⟨h1, h2⟩ | ⟨h1, h2⟩ <;>
    (subst h1; exact h2)

/-- Witness for C9: the value clause evaluated on the example document at
key `h2`. -/
theorem C9_heading_counts_witness :
    (2 : Nat) = (subDesc headingsDoc).countP (fun n => tagOf n == str "h2") :=
  C9_heading_counts.2.1 headingsDoc (str "h2") 2 (by decide)

/-! ## Claim C6 -/

/-- C6: the login-form detector scans forms in document order and
short-circuits true at the first form that has a password-type input or
both a username/email-suggesting input and a submit control; it returns
true exactly when some form matches, and false otherwise.  A form with a
password input is detected regardless of its other fields. -/
theorem C6_login_form_detector :
    (∀ doc : HNode, hasLoginForm doc = true ↔
      ∃ f ∈ formsOf doc, formMatches f = true) ∧
    (∀ (f : HNode) (rest : List HNode), formMatches f = true →
      hasLoginFormLoop (f :: rest) = true) ∧
    hasLoginForm passwordFormDoc = true ∧
    hasLoginForm plainFormDoc = false := by
  have loop_any : ∀ l : List HNode, hasLoginFormLoop l = l.any formMatches := by
    intro l
    induction l with
    | nil => rfl
    | cons f rest ih =>
      unfold hasLoginFormLoop
      cases hp : formHasPassword f with
      | true => simp [List.any_cons, formMatches, hp]
      | false =>
        cases hu : formHasUser f && formHasSubmit f with
        | true => simp [List.any_cons, formMatches, hp, hu]
        | false => simp [List.any_cons, formMatches, hp, hu, ih]
  refine ⟨fun doc => ?_, ?_, rfl, rfl⟩
  · rw [hasLoginForm, loop_any]
    exact List.any_eq_true
  · intro f rest h
    unfold hasLoginFormLoop
    cases hp : formHasPassword f with
    | true => rfl
    | false =>
      cases hu : formHasUser f && formHasSubmit f with
      | true => rfl
      | false =>
        exfalso
        unfold formMatches at h
        rw [hp, hu] at h
        exact Bool.noConfusion h

/-- Witness for C6: the short-circuit clause applied to the password form
with a non-empty remainder of forms. -/
theorem C6_login_form_detector_witness :
    hasLoginFormLoop
      (HNode.elem (str "form") []
        (.elem (str "input") [(str "type", str "password")] .nil .nil) .nil
        :: [HNode.elem (str "form") [] .nil .nil]) = true :=
  C6_login_form_detector.2.1
    (HNode.elem (str "form") []
      (.elem (str "input") [(str "type", str "password")] .nil .nil) .nil)
    [HNode.elem (str "form") [] .nil .nil] (by decide)

/-! ## Invariants of the classification fold -/

theorem classifyStep_inv (base : GoURL) (st : ClassifyState) (href : Str)
    (h1 : st.seen = st.all) (h2 : st.all.Nodup)
    (h3 : st.internal + st.external = st.all.length) :
    (classifyStep base st href).seen = (classifyStep base st href).all ∧
    (classifyStep base st href).all.Nodup ∧
    (classifyStep base st href).internal + (classifyStep base st href).external =
      (classifyStep base st href).all.length := by
  unfold classifyStep
  split
  · exact ⟨h1, h2, h3⟩
  · split
    · exact ⟨h1, h2, h3⟩
    · next u0 hp =>
      by_cases hm : (resolvedNorm base u0).toStr ∈ st.seen
      · rw [if_pos hm]
        exact ⟨h1, h2, h3⟩
      · rw [if_neg hm]
        refine ⟨by simp [h1], ?_, ?_⟩
        · have hnot : (resolvedNorm base u0).toStr ∉ st.all := h1 ▸ hm
          simp [List.nodup_append, h2, hnot]
        · by_cases hsh : sameHost (resolvedNorm base u0) base = true <;>
            simp [hsh, List.length_append] <;> omega

theorem classifyFold_inv (base : GoURL) (hrefs : List Str) :
    ∀ st : ClassifyState,
      st.seen = st.all → st.all.Nodup →
      st.internal + st.external = st.all.length →
      (hrefs.foldl (classifyStep base) st).seen =
          (hrefs.foldl (classifyStep base) st).all ∧
        (hrefs.foldl (classifyStep base) st).all.Nodup ∧
        (hrefs.foldl (classifyStep base) st).internal +
            (hrefs.foldl (classifyStep base) st).external =
          (hrefs.foldl (classifyStep base) st).all.length := by
  induction hrefs with
  | nil => intro st h1 h2 h3; exact ⟨h1, h2, h3⟩
  | cons a as ih =>
    intro st h1 h2 h3
    obtain ⟨g1, g2, g3⟩ := classifyStep_inv base st a h1 h2 h3
    exact ih _ g1 g2 g3

theorem classifyLinks_inv (doc : HNode) (base : GoURL) :
    ((classifyLinks doc base).2.2).Nodup ∧
    (classifyLinks doc base).1 + (classifyLinks doc base).2.1 =
      (classifyLinks doc base).2.2.length := by
  obtain ⟨_, g2, g3⟩ :=
    classifyFold_inv base (anchorHrefs doc) {} rfl List.nodup_nil rfl
  exact ⟨g2, g3⟩

/-! ## Claim C5 -/

/-- C5: for every anchor href, in document order, the classifier trims it
and skips it when empty or prefixed `javascript:`/`mailto:`/`#`, or when
it fails to parse; relative hrefs are resolved against the base URL; the
fragment and the query are stripped to form the dedup key; an
already-seen normalized form is skipped; every remaining link is counted
internal exactly when its hostname case-insensitively equals the base
hostname, else external.  For anchors `/x`, `https://example.com/y`,
`https://other.com/` against base `https://example.com/page` this yields
internal 2, external 1, and 3 unique links. -/
theorem C5_link_classifier_contract :
    (∀ (base : GoURL) (st : ClassifyState) (href : Str),
      (trimChars href = [] ∨ hasPfx (str "javascript:") (trimChars href) = true ∨
        hasPfx (str "mailto:") (trimChars href) = true ∨
        hasPfx (str "#") (trimChars href) = true) →
      classifyStep base st href = st) ∧
    (∀ (base : GoURL) (st : ClassifyState) (href : Str),
      goURLParse (trimChars href) = none → classifyStep base st href = st) ∧
    (∀ (base : GoURL) (st : ClassifyState) (href : Str) (u0 : GoURL),
      goURLParse (trimChars href) = some u0 →
      (resolvedNorm base u0).toStr ∈ st.seen → classifyStep base st href = st) ∧
    (∀ base u0 : GoURL, u0.isAbs = false →
      resolvedNorm base u0 =
        { base.resolveReference u0 with fragment := [], rawQuery := [] }) ∧
    (∀ base u0 : GoURL, u0.isAbs = true →
      resolvedNorm base u0 = { u0 with fragment := [], rawQuery := [] }) ∧
    (∀ a b : GoURL, sameHost a b = eqFold a.hostname b.hostname) ∧
    (∀ (base : GoURL) (st : ClassifyState) (href : Str) (u0 : GoURL),
      trimChars href ≠ [] →
      hasPfx (str "javascript:") (trimChars href) = false →
      hasPfx (str "mailto:") (trimChars href) = false →
      hasPfx (str "#") (trimChars href) = false →
      goURLParse (trimChars href) = some u0 →
      (resolvedNorm base u0).toStr ∉ st.seen →
      classifyStep base st href =
        { internal := if sameHost (resolvedNorm base u0) base then st.internal + 1
            else st.internal,
          external := if sameHost (resolvedNorm base u0) base then st.external
            else st.external + 1,
          seen := st.seen ++ [(resolvedNorm base u0).toStr],
          all := st.all ++ [(resolvedNorm base u0).toStr] }) ∧
    (∀ (doc : HNode) (base : GoURL), ((classifyLinks doc base).2.2).Nodup) ∧
    classifyLinks threeLinksDoc pageBase =
      (2, 1, [str "https://example.com/x", str "https://example.com/y",
              str "https://other.com/"]) := by
  refine ⟨?_, ?_, ?_, ?_, ?_, fun a b => rfl, ?_, fun doc base => (classifyLinks_inv doc base).1, rfl⟩
  · intro base st href h
    rcases h with h | h | h | h <;> simp [classifyStep, skipHref, h]
  · intro base st href h
    unfold classifyStep
    split
    · rfl
    · rw [h]
  · intro base st href u0 h hm
    unfold classifyStep
    split
    · rfl
    · rw [h]
      simp [hm]
  · intro base u0 h
    unfold resolvedNorm
    rw [h]
    rfl
  · intro base u0 h
    unfold resolvedNorm
    rw [h]
    rfl
  · intro base st href u0 hne hjs hml hhs hp hm
    unfold classifyStep
    split
    · next hcond =>
      exfalso
      simp only [skipHref, Bool.or_eq_true, decide_eq_true_eq] at hcond
      rcases hcond with ((hc | hc) | hc) | hc
      · exact hne hc
      · exact absurd hc (by rw [hjs]; exact Bool.noConfusion)
      · exact absurd hc (by rw [hml]; exact Bool.noConfusion)
      · exact absurd hc (by rw [hhs]; exact Bool.noConfusion)
    · rw [hp]
      simp [hm]

/-- Witness for C5: the emit clause applied to href `/x` over base
`https://example.com/page` with an empty starting state. -/
theorem C5_link_classifier_contract_witness :
    classifyStep pageBase {} (str "/x") =
      { internal :=
          if sameHost (resolvedNorm pageBase { path := str "/x" }) pageBase then
            ClassifyState.internal {} + 1
          else ClassifyState.internal {},
        external :=
          if sameHost (resolvedNorm pageBase { path := str "/x" }) pageBase then
            ClassifyState.external {}
          else ClassifyState.external {} + 1,
        seen := ClassifyState.seen {} ++ [(resolvedNorm pageBase { path := str "/x" }).toStr],
        all := ClassifyState.all {} ++ [(resolvedNorm pageBase { path := str "/x" }).toStr] } :=
  C5_link_classifier_contract.2.2.2.2.2.2.1 pageBase {} (str "/x")
    { path := str "/x" } (by decide) (by decide) (by decide) (by decide) rfl
    (by decide)

/-! ## Orchestrator fixtures and inversion lemmas -/

/-- Document served by the redirecting fixture: one anchor to
`https://b.com/x`. -/
def redirectDoc : HNode :=
  .elem (str "html") []
    (.elem (str "body") [] (anchorEl "https://b.com/x" .nil) .nil) .nil

/-- Post-redirect URL of the redirecting fixture (`https://b.com/`). -/
def redirectFinalURL : GoURL :=
  { scheme := str "https", host := str "b.com", path := str "/" }

/-- Network where fetching `https://a.com` succeeds with status 200 after
being redirected to `https://b.com/`, and every probe succeeds. -/
def redirectNet : Network :=
  { fetch := fun s =>
      if s == str "https://a.com" then
        some { status := 200, body := [], doc := redirectDoc,
               finalURL := redirectFinalURL }
      else none,
    probes := fun _ => ⟨.status 200, .status 200⟩ }

/-- The result `analyzeURL` produces on `redirectNet` for input `a.com`. -/
def redirectResult : AnalyzeResult :=
  { htmlVersion := str "Unknown (no doctype)",
    title := [],
    headings := [(str "h1", 0), (str "h2", 0), (str "h3", 0),
                 (str "h4", 0), (str "h5", 0), (str "h6", 0)],
    links := { internal := 0, external := 1, total := 1 },
    hasLoginForm := false,
    inaccessible := 0 }

/-- Network where fetching `https://x.com` answers 404 with a short body. -/
def notFoundNet : Network :=
  { fetch := fun s =>
      if s == str "https://x.com" then
        some { status := 404, body := str "  not found page  ", doc := .nil,
               finalURL := { scheme := str "https", host := str "x.com" } }
      else none,
    probes := fun _ => ⟨.netError, .netError⟩ }

theorem analyzeURL_ok_eq (net : Network) (raw parsed : Str) (reqURL : GoURL)
    (resp : FetchResponse)
    (hn : normalizeURL raw = .ok parsed)
    (hq : goURLParse parsed = some reqURL)
    (hf : net.fetch parsed = some resp)
    (hs : ¬(resp.status < 200 ∨ 400 ≤ resp.status)) :
    analyzeURL net raw = .ok
      { htmlVersion := detectHTMLVersion resp.doc,
        title := trimChars (titleText resp.doc),
        headings := countHeadings resp.doc,
        links := { internal := (classifyLinks resp.doc reqURL).1,
                   external := (classifyLinks resp.doc reqURL).2.1,
                   total := (classifyLinks resp.doc reqURL).1 +
                     (classifyLinks resp.doc reqURL).2.1 },
        inaccessible :=
          checkLinksAccessibility net.probes (classifyLinks resp.doc reqURL).2.2,
        hasLoginForm := hasLoginForm resp.doc } := by
  simp only [analyzeURL, hn, hq, hf]
  rw [if_neg hs]

theorem analyzeURL_badstatus_eq (net : Network) (raw parsed : Str) (reqURL : GoURL)
    (resp : FetchResponse)
    (hn : normalizeURL raw = .ok parsed)
    (hq : goURLParse parsed = some reqURL)
    (hf : net.fetch parsed = some resp)
    (hs : resp.status < 200 ∨ 400 ≤ resp.status) :
    analyzeURL net raw =
      .error { statusCode := resp.status, msg := trimChars (resp.body.take 1024) } := by
  simp only [analyzeURL, hn, hq, hf]
  rw [if_pos hs]

theorem analyzeURL_ok_inv (net : Network) (raw : Str) (res : AnalyzeResult)
    (h : analyzeURL net raw = .ok res) :
    ∃ (parsed : Str) (reqURL : GoURL) (resp : FetchResponse),
      normalizeURL raw = .ok parsed ∧ goURLParse parsed = some reqURL ∧
      net.fetch parsed = some resp ∧ ¬(resp.status < 200 ∨ 400 ≤ resp.status) ∧
      res = { htmlVersion := detectHTMLVersion resp.doc,
              title := trimChars (titleText resp.doc),
              headings := countHeadings resp.doc,
              links := { internal := (classifyLinks resp.doc reqURL).1,
                         external := (classifyLinks resp.doc reqURL).2.1,
                         total := (classifyLinks resp.doc reqURL).1 +
                           (classifyLinks resp.doc reqURL).2.1 },
              inaccessible :=
                checkLinksAccessibility net.probes (classifyLinks resp.doc reqURL).2.2,
              hasLoginForm := hasLoginForm resp.doc } := by
  unfold analyzeURL at h
  split at h
  · exact Except.noConfusion h
  · next parsed hn =>
    split at h
    · exact Except.noConfusion h
    · next reqURL hq =>
      split at h
      · exact Except.noConfusion h
      · next resp hf =>
        split at h
        · exact Except.noConfusion h
        · next hs =>
          cases h
          exact ⟨parsed, reqURL, resp, hn, hq, hf, hs, rfl⟩

theorem checkLinks_le_length (probes : Str → ProbePair) (links : List Str) :
    checkLinksAccessibility probes links ≤ links.length := by
  unfold checkLinksAccessibility
  split
  · exact Nat.zero_le _
  · exact List.countP_le_length _

/-! ## Claim C7 -/

/-- C7: a fetched response with status outside `[200,400)` makes the
analysis return an error carrying that status and a message built from at
most the first 1024 bytes of the body (white-space trimmed), and no
result; result and error are mutually exclusive.  A 404 target yields an
error with statusCode 404. -/
theorem C7_error_status_and_truncated_body :
    (∀ (net : Network) (raw parsed : Str) (reqURL : GoURL) (resp : FetchResponse),
      normalizeURL raw = .ok parsed →
      goURLParse parsed = some reqURL →
      net.fetch parsed = some resp →
      (resp.status < 200 ∨ 400 ≤ resp.status) →
      analyzeURL net raw =
        .error { statusCode := resp.status,
                 msg := trimChars (resp.body.take 1024) }) ∧
    (∀ (net : Network) (raw : Str) (res : AnalyzeResult) (e : AnalyzeError),
      analyzeURL net raw = .ok res → analyzeURL net raw ≠ .error e) ∧
    analyzeURL notFoundNet (str "x.com") =
      .error { statusCode := 404, msg := str "not found page" } := by
  refine ⟨analyzeURL_badstatus_eq, ?_, rfl⟩
  intro net raw res e hok herr
  rw [hok] at herr
  exact Except.noConfusion herr

/-- Witness for C7: the error characterization applied to the 404 fixture. -/
theorem C7_error_status_and_truncated_body_witness :
    analyzeURL notFoundNet (str "x.com") =
      .error { statusCode := 404,
               msg := trimChars ((str "  not found page  ").take 1024) } :=
  C7_error_status_and_truncated_body.1 notFoundNet (str "x.com")
    (str "https://x.com") { scheme := str "https", host := str "x.com" }
    { status := 404, body := str "  not found page  ", doc := .nil,
      finalURL := { scheme := str "https", host := str "x.com" } }
    rfl rfl rfl (Or.inr (by decide))

/-! ## Claim C1 -/

/-- Counterexample to C1: `AnalyzeURL` passes `req.URL` — the parse of the
normalized input URL, the URL the request was issued to — to
`classifyLinks`, not the post-redirect `resp.Request.URL`.  On a fetch of
`https://a.com` that was redirected to `https://b.com/`, the anchor
`https://b.com/x` is classified external (internal 0, external 1), while
classification against the post-redirect URL would give internal 1,
external 0. -/
theorem C1_counterexample :
    (analyzeURL redirectNet (str "a.com")).toOption.map AnalyzeResult.links =
      some { internal := 0, external := 1, total := 1 } ∧
    classifyLinks redirectDoc redirectFinalURL = (1, 0, [str "https://b.com/x"]) :=
  ⟨rfl, rfl⟩

/-- C1 (amended): the base URL used by the Link Classifier inside
`AnalyzeURL` is the parse of the normalized input URL — the URL the
request was originally issued to — not the post-redirect URL of the
response. -/
theorem C1_base_is_original_request_url (net : Network) (raw parsed : Str)
    (reqURL : GoURL) (resp : FetchResponse) (res : AnalyzeResult)
    (hn : normalizeURL raw = .ok parsed)
    (hq : goURLParse parsed = some reqURL)
    (hf : net.fetch parsed = some resp)
    (hok : analyzeURL net raw = .ok res) :
    res.links = { internal := (classifyLinks resp.doc reqURL).1,
                  external := (classifyLinks resp.doc reqURL).2.1,
                  total := (classifyLinks resp.doc reqURL).1 +
                    (classifyLinks resp.doc reqURL).2.1 } := by
  obtain ⟨parsed2, reqURL2, resp2, hn2, hq2, hf2, hs2, hres⟩ :=
    analyzeURL_ok_inv net raw res hok
  rw [hn] at hn2
  cases hn2
  rw [hq] at hq2
  cases hq2
  rw [hf] at hf2
  cases hf2
  rw [hres]

/-- Witness for C1 (amended): instantiated on the redirecting fixture. -/
theorem C1_base_is_original_request_url_witness :
    redirectResult.links =
      { internal := (classifyLinks redirectDoc
          { scheme := str "https", host := str "a.com" }).1,
        external := (classifyLinks redirectDoc
          { scheme := str "https", host := str "a.com" }).2.1,
        total := (classifyLinks redirectDoc
            { scheme := str "https", host := str "a.com" }).1 +
          (classifyLinks redirectDoc
            { scheme := str "https", host := str "a.com" }).2.1 } :=
  C1_base_is_original_request_url redirectNet (str "a.com") (str "https://a.com")
    { scheme := str "https", host := str "a.com" }
    { status := 200, body := [], doc := redirectDoc, finalURL := redirectFinalURL }
    redirectResult rfl rfl rfl rfl

/-! ## Claim C8 -/

/-- C8: for every successfully produced result, `links.total` equals
`links.internal + links.external`, and the inaccessible count is at most
`links.total`. -/
theorem C8_link_summary_invariants (net : Network) (raw : Str)
    (res : AnalyzeResult) (h : analyzeURL net raw = .ok res) :
    res.links.total = res.links.internal + res.links.external ∧
    res.inaccessible ≤ res.links.total := by
  obtain ⟨parsed, reqURL, resp, hn, hq, hf, hs, hres⟩ :=
    analyzeURL_ok_inv net raw res h
  subst hres
  refine ⟨rfl, ?_⟩
  have hle := checkLinks_le_length net.probes (classifyLinks resp.doc reqURL).2.2
  have hlen := (classifyLinks_inv resp.doc reqURL).2
  simpa [hlen] using hle

/-- Witness for C8: the invariants evaluated on the redirecting fixture. -/
theorem C8_link_summary_invariants_witness :
    redirectResult.links.total =
        redirectResult.links.internal + redirectResult.links.external ∧
    redirectResult.inaccessible ≤ redirectResult.links.total :=
  C8_link_summary_invariants redirectNet (str "a.com") redirectResult rfl

end WebAnalyzer
